import Mathlib

/- Verification development for the dblog plugin: a buffered time-series
   logger in front of a DB-API style relational backend.  The embedding
   models Python strings as lists of characters, the database as an explicit
   record of the two table contents plus a commit counter, and the flush
   loop of DbLog._dump as a fold over the buffer entries.  Backend failures
   are injected through an explicit fault model, since the plugin catches
   every exception of the per-item flush sequence and only logs it. -/

namespace DbLog

/-- Python strings, modelled as lists of characters. -/
abbrev Str := List Char

/-- One buffered observation: the tuple (timestamp, val_str, val_num,
    val_bool) appended by DbLog.update_item (line 129). -/
structure Obs where
  time : Int
  val_str : Option Str
  val_num : Option ℚ
  val_bool : Option Bool
deriving DecidableEq

/-- A row of the log table: (time, item_id, val_str, val_num, val_bool). -/
structure LogRow where
  time : Int
  item_id : Int
  val_str : Option Str
  val_num : Option ℚ
  val_bool : Option Bool
deriving DecidableEq

/-- A row of the item table: (id, name, time, val_str, val_num, val_bool). -/
structure ItemRow where
  id : Int
  name : Str
  time : Option Int
  val_str : Option Str
  val_num : Option ℚ
  val_bool : Option Bool
deriving DecidableEq

/-- The backend database: contents of the two tables, plus a counter of the
    fdb.commit() calls that have been executed. -/
structure DbState where
  item : List ItemRow
  log : List LogRow
  commits : Nat
deriving DecidableEq

/-- The in-memory buffer: an insertion-ordered map from item name to the
    pending observations of that item. -/
abbrev Buffer := List (Str × List Obs)

/-- A logged warning: the item identifier together with the error detail. -/
abbrev Warn := Str × Str

/-- Fault model for the backend.  For an item name, none means the backend
    behaves; some (f, msg) means an exception with message msg is raised
    somewhere inside the per-item sequence, after the partial effect f on
    the database.  Quantifying over all faults covers every failure point
    of id resolution, log inserts, snapshot update and commit. -/
abbrev Fault := Str → Option ((DbState → DbState) × Str)

/-- The component state of one DbLog instance.  closed records whether a
    fdb.close() call has completed without raising. -/
structure FlushState where
  connected : Bool
  buffer : Buffer
  db : DbState
  warnings : List Warn
  closed : Bool
deriving DecidableEq

/-- SELECT id FROM item WHERE name = ? with fetchone (line 150): the first
    matching row, or none. -/
def selectIdByName (db : DbState) (name : Str) : Option Int :=
  (db.item.find? (fun r => r.name == name)).map (fun r => r.id)

/-- SELECT MAX(id) FROM item (line 152): the aggregate is NULL on an empty
    table. -/
def selectMax (db : DbState) : Option Int :=
  (db.item.map (fun r => r.id)).max?

/-- The id value line 155 computes for a fresh name: 1 when the item table
    is empty (MAX(id) is NULL), else MAX(id) + 1. -/
def nextId (db : DbState) : Int :=
  match selectMax db with
  | none => 1
  | some m => m + 1

/-- Lines 149 to 159 of _dump: create a new item id.  Look the name up;
    when absent, compute max+1 (1 on an empty table), INSERT the (id, name)
    row and re-SELECT to confirm.  The second component is the re-selected
    id in that branch; the code would raise if it were none. -/
def resolve (db : DbState) (name : Str) : DbState × Option Int :=
  match selectIdByName db name with
  | some i => (db, some i)
  | none =>
      let db1 : DbState := { db with item := db.item ++ [⟨nextId db, name, none, none, none, none⟩] }
      (db1, selectIdByName db1 name)

/-- The log row inserted for one drained observation (lines 164 and 167):
    (time, item_id, val_str, val_num, val_bool). -/
def mkLogRow (id : Int) (t : Obs) : LogRow :=
  ⟨t.time, id, t.val_str, t.val_num, t.val_bool⟩

/-- Lines 149 to 176: the per-item success path of _dump under the
    connection lock.  Resolve the id, insert one log row per drained
    observation in original order, update the item snapshot row for that id
    to the last drained observation, and commit.  The error branches mirror
    the subscript and index errors the code would raise on an impossible
    fetch result or an empty drained list. -/
def processItem (db : DbState) (name : Str) (tuples : List Obs) : Except Str DbState :=
  match resolve db name with
  | (_, none) => Except.error ("TypeError".toList)
  | (db1, some id) =>
      let db2 := tuples.foldl (fun d t => { d with log := d.log ++ [mkLogRow id t] }) db1
      match tuples.getLast? with
      | none => Except.error ("IndexError".toList)
      | some t =>
          let db3 : DbState :=
            { db2 with item := db2.item.map (fun r =>
                if r.id == id then
                  { r with time := some t.time, val_str := t.val_str,
                           val_num := t.val_num, val_bool := t.val_bool }
                else r) }
          Except.ok { db3 with commits := db3.commits + 1 }

/-- One buffer entry of the _dump loop, after the drain (lines 145 to 180):
    nothing happens on an empty drained list; otherwise the per-item work
    runs inside try/except under the connection lock.  A missing connection
    (the initial connect failed, so the instance has no fdb attribute) or
    an injected backend fault raises, and the exception is caught and
    logged with the item identifier and the error detail. -/
def dumpItem (connected : Bool) (fail : Fault) (db : DbState) (warns : List Warn)
    (name : Str) (tuples : List Obs) : DbState × List Warn :=
  if tuples.length = 0 then (db, warns)
  else if connected = false then
    (db, warns ++ [(name, "AttributeError".toList)])
  else
    match fail name with
    | some p => (p.1 db, warns ++ [(name, p.2)])
    | none =>
        match processItem db name tuples with
        | Except.ok db2 => (db2, warns)
        | Except.error msg => (db, warns ++ [(name, msg)])

/-- Fold step of _dump over one buffer entry: the drain (lines 140 to 143)
    replaces the entry value by an empty list under the buffer lock, then
    the drained list is flushed. -/
def dumpStep (connected : Bool) (fail : Fault)
    (acc : DbState × List Warn × Buffer) (e : Str × List Obs) :
    DbState × List Warn × Buffer :=
  let r := dumpItem connected fail acc.1 acc.2.1 e.1 e.2
  (r.1, r.2, acc.2.2 ++ [(e.1, [])])

/-- DbLog._dump (lines 134 to 180).  Note lines 135 and 136: the connected
    check is followed by pass, not return, so the loop below runs even when
    the initial connect failed; every buffer entry is still drained and the
    backend access then raises inside the per-item try block. -/
def dump (fail : Fault) (s : FlushState) : FlushState :=
  let r := s.buffer.foldl (dumpStep s.connected fail) (s.db, s.warnings, [])
  { s with db := r.1, warnings := r.2.1, buffer := r.2.2 }

/-- fdb.close(), which may itself raise (line 108). -/
def closeConn (closeRaises : Bool) : Except Str Unit :=
  if closeRaises then Except.error ("CloseError".toList) else Except.ok ()

/-- DbLog.stop (lines 103 to 113): one final _dump, then close under the
    connection lock with any exception swallowed by the bare except, and
    connected cleared in the finally block. -/
def stop (closeRaises : Bool) (fail : Fault) (s : FlushState) : FlushState :=
  let s1 := dump fail s
  let s2 :=
    match closeConn closeRaises with
    | Except.ok _ => { s1 with closed := true }
    | Except.error _ => s1
  { s2 with connected := false }

/-- DbLog.update_item (lines 115 to 129).  The arguments fval, bval and
    sval stand for the coerced values float(item()), bool(item()) and
    str(item()) of the three branches, and ts for the timestamp taken from
    the current host time; the branch is chosen by the declared item type
    alone. -/
def update_item (itemType : Str) (fval : ℚ) (bval : Bool) (sval : Str) (ts : Int) : Obs :=
  if itemType = "num".toList then
    { time := ts, val_str := none, val_num := some fval, val_bool := none }
  else if itemType = "bool".toList then
    { time := ts, val_str := none, val_num := none, val_bool := some bval }
  else
    { time := ts, val_str := some sval, val_num := none, val_bool := none }

/-- Exactly one of the three value slots of an observation is set. -/
def exactlyOne (o : Obs) : Bool :=
  o.val_str.isSome.toNat + o.val_num.isSome.toNat + o.val_bool.isSome.toNat = 1

/-- The arguments of one update_item call: (type, fval, bval, sval, ts). -/
abbrev Call := Str × ℚ × Bool × Str × Int

/-- The buffer list of one item after a sequence of update_item calls, each
    appending its observation. -/
def bufferAfter (calls : List Call) : List Obs :=
  calls.foldl (fun buf c => buf ++ [update_item c.1 c.2.1 c.2.2.1 c.2.2.2.1 c.2.2.2.2]) []

/-- Python str.replace(target, repl): replace every occurrence. -/
def pyReplaceAll (s : Str) (target : Char) (repl : Str) : Str :=
  match s with
  | [] => []
  | c :: rest =>
      if c = target then repl ++ pyReplaceAll rest target repl
      else c :: pyReplaceAll rest target repl

/-- Python str.replace(target, repl, 1): replace the first occurrence only. -/
def pyReplaceFirst (s : Str) (target : Char) (repl : Str) : Str :=
  match s with
  | [] => []
  | c :: rest =>
      if c = target then repl ++ rest
      else c :: pyReplaceFirst rest target repl

/-- Helper for the decimal rendering: structural recursion on a fuel that
    strictly exceeds the number, so every division step is covered. -/
def natToDecimalAux : Nat → Nat → Str
  | 0, _ => []
  | fuel + 1, n =>
      if n < 10 then [Char.ofNat (48 + n)]
      else natToDecimalAux fuel (n / 10) ++ [Char.ofNat (48 + n % 10)]

/-- The decimal digits of n, as Python str renders a nonnegative int. -/
def natToDecimal (n : Nat) : Str :=
  natToDecimalAux (n + 1) n

/-- The while loop of the numeric branch of _format (lines 205 to 208), run
    with fuel equal to the number of placeholders in the statement: each
    pass replaces the first remaining question mark by a colon marker that
    contains no question mark, so the loop makes exactly that many passes
    before its condition turns false. -/
def numericLoop (stmt : Str) (cnt : Nat) : Nat → Str
  | 0 => stmt
  | fuel + 1 =>
      if '?' ∈ stmt then
        numericLoop (pyReplaceFirst stmt '?' (':' :: natToDecimal cnt)) (cnt + 1) fuel
      else stmt

/-- The supported parameter styles (line 43). -/
def styles : List Str := ["qmark".toList, "format".toList, "numeric".toList]

/-- DbLog._format (lines 199 to 209): dispatch on the parameter style; an
    unsupported style falls off the end of the branch chain, so the Python
    function returns None. -/
def _format (style : Str) (stmt : Str) : Option Str :=
  if style = "qmark".toList then some stmt
  else if style = "format".toList then some (pyReplaceAll stmt '?' ("%s".toList))
  else if style = "numeric".toList then some (numericLoop stmt 1 (stmt.count '?'))
  else none

/-- The statement value that _execute (lines 182 to 190) hands to
    cursor.execute: the result of _format, None included. -/
def executeStmtArg (style : Str) (stmt : Str) : Option Str :=
  _format style stmt

/-- A host datetime, reduced to the two quantities _timestamp reads: the
    whole epoch seconds returned by time.mktime of its timetuple (the
    timetuple drops microseconds, so mktime yields a whole number of
    seconds), and the microsecond field. -/
structure PyDatetime where
  mktimeSeconds : Int
  microsecond : Nat
deriving DecidableEq

/-- DbLog._timestamp (lines 211 and 212): int of mktime times 1000 plus
    int of microsecond over 1000 (a float division truncated, which on a
    nonnegative microsecond is the floor). -/
def _timestamp (dt : PyDatetime) : Int :=
  dt.mktimeSeconds * 1000 + (dt.microsecond / 1000 : Nat)

/-- Number of item table rows carrying a given name. -/
def countName (db : DbState) (m : Str) : Nat :=
  (db.item.filter (fun r => r.name == m)).length

/-- Modelled from the wording of the spec, for comparison with the numeric
    branch of _format: the k-th question mark in left-to-right occurrence
    order becomes a colon followed by the decimal digits of k. -/
def numericSpec : Str → Nat → Str
  | [], _ => []
  | c :: rest, k =>
      if c = '?' then ':' :: natToDecimal k ++ numericSpec rest (k + 1)
      else c :: numericSpec rest k

end DbLog

/- A small interleaving model of the unsynchronised producer append in
   update_item (line 129) racing the lock-protected drain of _dump (lines
   140 to 143).  Python list objects are heap cells; the buffer entry of
   the single item under consideration points at one cell.  The producer
   first reads the cell reference out of the buffer dictionary and then
   appends to that cell, without taking the buffer lock, exactly as line
   129 does; the drain atomically captures the contents of the current
   cell for flushing and rebinds the buffer entry to a fresh empty cell,
   as the lock-protected lines 140 to 143 do. -/

namespace BufferRace

/-- Heap of list cells, the index of the cell the buffer entry points at,
    the producer register holding the cell reference it read, and the
    observations drained so far across all flush cycles. -/
structure CState where
  cells : List (List Nat)
  cur : Nat
  preg : Option Nat
  out : List Nat
deriving DecidableEq

/-- The atomic actions: the producer reads the buffer entry, the producer
    appends to the cell it read, the flusher drains (swap plus capture). -/
inductive Act where
  | readBuf : Act
  | append : Nat → Act
  | drain : Act
deriving DecidableEq

/-- One atomic step. -/
def step (s : CState) (a : Act) : CState :=
  match a with
  | Act.readBuf => { s with preg := some s.cur }
  | Act.append v =>
      match s.preg with
      | some r => { s with cells := s.cells.set r (s.cells.getD r [] ++ [v]) }
      | none => s
  | Act.drain =>
      { s with out := s.out ++ s.cells.getD s.cur [],
               cur := s.cells.length,
               cells := s.cells ++ [[]] }

/-- Run a schedule of atomic actions. -/
def run (s : CState) (sched : List Act) : CState :=
  sched.foldl step s

/-- Initial state: one empty cell, the buffer entry points at it. -/
def init : CState :=
  { cells := [[]], cur := 0, preg := none, out := [] }

/-- The racing schedule: the producer reads the list reference, the flusher
    drains and rebinds the entry, the producer appends observation 7 to the
    stale cell, and a second flush cycle drains again. -/
def raceFinal : CState :=
  run init [Act.readBuf, Act.drain, Act.append 7, Act.drain]

end BufferRace

namespace DbLog

theorem find?_eq_none_of_selectIdByName_none {db : DbState} {name : Str}
    (h : selectIdByName db name = none) :
    db.item.find? (fun r => r.name == name) = none := by
  unfold selectIdByName at h
  exact Option.map_eq_none'.mp h

theorem selectIdByName_append_fresh {db : DbState} {name : Str}
    (h : selectIdByName db name = none) (row : ItemRow) (hrow : row.name = name) :
    selectIdByName { db with item := db.item ++ [row] } name = some row.id := by
  have hf := find?_eq_none_of_selectIdByName_none h
  unfold selectIdByName
  simp [List.find?_append, hf, List.find?_cons, hrow]

theorem resolve_of_found {db : DbState} {name : Str} {i : Int}
    (h : selectIdByName db name = some i) : resolve db name = (db, some i) := by
  unfold resolve
  rw [h]

theorem resolve_of_fresh {db : DbState} {name : Str}
    (h : selectIdByName db name = none) :
    resolve db name =
      ({ db with item := db.item ++ [⟨nextId db, name, none, none, none, none⟩] },
        some (nextId db)) := by
  have hsel := selectIdByName_append_fresh h ⟨nextId db, name, none, none, none, none⟩ rfl
  simp only [resolve, h, hsel]

theorem resolve_returns_id (db : DbState) (name : Str) :
    ∃ db1 i, resolve db name = (db1, some i) := by
  cases h : selectIdByName db name with
  | some i => exact ⟨db, i, resolve_of_found h⟩
  | none => exact ⟨_, _, resolve_of_fresh h⟩

theorem resolve_stable (db : DbState) (name : Str) :
    resolve (resolve db name).1 name = ((resolve db name).1, (resolve db name).2) := by
  cases h : selectIdByName db name with
  | some i => simp [resolve_of_found h]
  | none =>
      rw [resolve_of_fresh h]
      exact resolve_of_found (selectIdByName_append_fresh h _ rfl)

theorem countName_pos_of_found {db : DbState} {name : Str} {i : Int}
    (h : selectIdByName db name = some i) : 1 ≤ countName db name := by
  unfold selectIdByName at h
  obtain ⟨r, hfind, _⟩ := Option.map_eq_some'.mp h
  have hmem := List.mem_of_find?_eq_some hfind
  have hp := List.find?_some hfind
  have hmf : r ∈ db.item.filter (fun r => r.name == name) :=
    List.mem_filter.mpr ⟨hmem, hp⟩
  have hne := List.ne_nil_of_mem hmf
  unfold countName
  have := List.length_pos.mpr hne
  omega

theorem countName_zero_of_none {db : DbState} {name : Str}
    (h : selectIdByName db name = none) : countName db name = 0 := by
  have hf := find?_eq_none_of_selectIdByName_none h
  have h1 := List.find?_eq_none.mp hf
  have h2 : db.item.filter (fun r => r.name == name) = [] :=
    List.filter_eq_nil_iff.mpr h1
  unfold countName
  rw [h2]
  rfl

theorem countName_resolve (db : DbState) (name m : Str) :
    countName (resolve db name).1 m =
      if m = name then max (countName db m) 1 else countName db m := by
  cases h : selectIdByName db name with
  | some i =>
      rw [resolve_of_found h]
      by_cases hm : m = name
      · subst hm
        have h1 := countName_pos_of_found h
        rw [if_pos rfl, Nat.max_eq_left h1]
      · simp [hm]
  | none =>
      rw [resolve_of_fresh h]
      by_cases hm : m = name
      · subst hm
        have h0 := countName_zero_of_none h
        unfold countName at h0 ⊢
        simp [List.filter_append, h0, List.filter_cons]
      · unfold countName
        have hb : ((name == m) = false) := by
          simp [Ne.symm hm]
        simp [List.filter_append, List.filter_cons, hm, hb]

/-- Claim C5: identifier resolution during flush.  A name already in the
    item table resolves to its stored id with the database unchanged; a
    fresh name gets next id 1 on an empty table else max id plus 1,
    inserted as a single new row and returned as confirmed by the
    re-select; a name resolves to the same id across flush cycles with no
    second resolve touching the database; and resolve never creates a
    second row for one name. -/
theorem C5_resolve_contract :
    (∀ (db : DbState) (name : Str) (i : Int),
        selectIdByName db name = some i → resolve db name = (db, some i)) ∧
    (∀ (db : DbState) (name : Str),
        selectIdByName db name = none →
          resolve db name =
            ({ db with item := db.item ++ [⟨nextId db, name, none, none, none, none⟩] },
              some (nextId db))) ∧
    (∀ (db : DbState) (name : Str),
        resolve (resolve db name).1 name = ((resolve db name).1, (resolve db name).2)) ∧
    (∀ (db : DbState) (name m : Str),
        countName (resolve db name).1 m =
          if m = name then max (countName db m) 1 else countName db m) :=
  ⟨fun _ _ _ h => resolve_of_found h, fun _ _ h => resolve_of_fresh h,
    resolve_stable, countName_resolve⟩

theorem C5_resolve_contract_witness :
    resolve ⟨[⟨4, "a".toList, none, none, none, none⟩], [], 0⟩ "a".toList =
      (⟨[⟨4, "a".toList, none, none, none, none⟩], [], 0⟩, some 4) ∧
    resolve ⟨[⟨4, "a".toList, none, none, none, none⟩], [], 0⟩ "b".toList =
      (⟨[⟨4, "a".toList, none, none, none, none⟩,
         ⟨5, "b".toList, none, none, none, none⟩], [], 0⟩, some 5) :=
  ⟨C5_resolve_contract.1 ⟨[⟨4, "a".toList, none, none, none, none⟩], [], 0⟩ "a".toList 4
      (by decide),
    C5_resolve_contract.2.1 ⟨[⟨4, "a".toList, none, none, none, none⟩], [], 0⟩ "b".toList
      (by decide)⟩

end DbLog

namespace DbLog

/-- Claim C1 fails on the code: lines 135 and 136 of _dump guard on the
    connected flag but end in pass rather than return, so after a failed
    initial connection a _dump call is not a no-op.  Evaluating the
    embedded _dump at a disconnected state with one buffered observation:
    the item buffer is drained and replaced by an empty list, and the
    backend statement is attempted, raising an AttributeError that is
    caught and logged. -/
theorem C1_dump_not_noop :
    dump (fun _ => none)
      { connected := false,
        buffer := [("x".toList,
          [{ time := 0, val_str := none, val_num := none, val_bool := some true }])],
        db := ⟨[], [], 0⟩, warnings := [], closed := false } =
      { connected := false, buffer := [("x".toList, [])], db := ⟨[], [], 0⟩,
        warnings := [("x".toList, "AttributeError".toList)], closed := false } := by
  decide

/-- Claim C9: stop performs one final flush, then closes the connection,
    and clears the connected flag even when close itself raises; the close
    error is swallowed in the bare except, so stop always returns with the
    state of the final flush and connected set to false. -/
theorem C9_stop_clears_connected (closeRaises : Bool) (fail : Fault) (s : FlushState) :
    (stop closeRaises fail s).connected = false ∧
    (stop closeRaises fail s).buffer = (dump fail s).buffer ∧
    (stop closeRaises fail s).db = (dump fail s).db ∧
    (stop closeRaises fail s).warnings = (dump fail s).warnings := by
  unfold stop closeConn
  cases closeRaises <;> simp

/-- Claim C7: the recorded timestamp is the integer epoch-milliseconds of
    the host time, the floor of the epoch seconds times 1000 plus the floor
    of the microsecond field over 1000; at microsecond 250000 this is the
    epoch seconds times 1000 plus 250. -/
theorem C7_timestamp_millis (dt : PyDatetime) (h : dt.microsecond < 1000000) :
    _timestamp dt = (dt.mktimeSeconds * 1000000 + (dt.microsecond : Int)) / 1000 ∧
    (dt.microsecond = 250000 → _timestamp dt = dt.mktimeSeconds * 1000 + 250) := by
  unfold _timestamp
  constructor
  · omega
  · intro h250
    rw [h250]
    norm_num

theorem C7_timestamp_millis_witness :
    _timestamp ⟨1609455600, 250000⟩ = (1609455600 * 1000000 + (250000 : Int)) / 1000 ∧
    ((250000 : Nat) = 250000 →
      _timestamp ⟨1609455600, 250000⟩ = 1609455600 * 1000 + 250) :=
  C7_timestamp_millis ⟨1609455600, 250000⟩ (by norm_num)

/-- Claim C10: for a parameter style outside the three supported ones,
    _format falls off the end of its branch chain and returns none, and
    _execute then passes none as the statement to the driver rather than
    raising a dedicated configuration error. -/
theorem C10_unsupported_style_none (style stmt : Str) (h : style ∉ styles) :
    _format style stmt = none ∧ executeStmtArg style stmt = none := by
  have h' : ¬(style = "qmark".toList ∨ style = "format".toList ∨ style = "numeric".toList) := by
    simpa [styles] using h
  push_neg at h'
  obtain ⟨h1, h2, h3⟩ := h'
  refine ⟨?_, ?_⟩ <;>
    simp only [executeStmtArg, _format] <;>
    rw [if_neg h1, if_neg h2, if_neg h3]

theorem C10_unsupported_style_none_witness :
    _format "pyformat".toList "SELECT 1;".toList = none ∧
    executeStmtArg "pyformat".toList "SELECT 1;".toList = none :=
  C10_unsupported_style_none "pyformat".toList "SELECT 1;".toList (by decide)

theorem update_item_one_slot (itemType : Str) (fval : ℚ) (bval : Bool) (sval : Str) (ts : Int) :
    exactlyOne (update_item itemType fval bval sval ts) = true := by
  unfold update_item exactlyOne
  by_cases h1 : itemType = "num".toList
  · rw [if_pos h1]
    rfl
  · rw [if_neg h1]
    by_cases h2 : itemType = "bool".toList
    · rw [if_pos h2]
      rfl
    · rw [if_neg h2]
      rfl

theorem bufferAfter_all_one_slot (calls : List Call) :
    ∀ o ∈ bufferAfter calls, exactlyOne o = true := by
  unfold bufferAfter
  have h : ∀ (l : List Call) (buf : List Obs), (∀ o ∈ buf, exactlyOne o = true) →
      ∀ o ∈ l.foldl
        (fun buf c => buf ++ [update_item c.1 c.2.1 c.2.2.1 c.2.2.2.1 c.2.2.2.2]) buf,
        exactlyOne o = true := by
    intro l
    induction l with
    | nil => intro buf hb; simpa using hb
    | cons c cs ih =>
        intro buf hb o ho
        refine ih _ ?_ o ho
        intro o' ho'
        rcases List.mem_append.mp ho' with h' | h'
        · exact hb o' h'
        · rcases List.mem_singleton.mp h' with rfl
          exact update_item_one_slot _ _ _ _ _
  exact h calls [] (by simp)

/-- Claim C8: every observation produced by update_item has exactly one of
    the three value slots set, the slot chosen only by the declared item
    type: num sets val_num to the float coercion, bool sets val_bool to the
    bool coercion, any other type sets val_str to the stringified value;
    and every tuple placed in a buffer by a sequence of update_item calls
    satisfies the exactly-one invariant. -/
theorem C8_value_classification :
    (∀ (itemType : Str) (fval : ℚ) (bval : Bool) (sval : Str) (ts : Int),
        exactlyOne (update_item itemType fval bval sval ts) = true ∧
        (itemType = "num".toList →
          (update_item itemType fval bval sval ts).val_num = some fval) ∧
        (itemType = "bool".toList →
          (update_item itemType fval bval sval ts).val_bool = some bval) ∧
        (itemType ≠ "num".toList → itemType ≠ "bool".toList →
          (update_item itemType fval bval sval ts).val_str = some sval)) ∧
    (∀ calls : List Call, ∀ o ∈ bufferAfter calls, exactlyOne o = true) := by
  refine ⟨fun itemType fval bval sval ts => ?_, bufferAfter_all_one_slot⟩
  refine ⟨update_item_one_slot itemType fval bval sval ts, ?_, ?_, ?_⟩
  · intro h
    subst h
    rfl
  · intro h
    subst h
    rfl
  · intro hn hb
    unfold update_item
    rw [if_neg hn, if_neg hb]

theorem C8_value_classification_witness :
    exactlyOne (update_item "num".toList (43/2 : ℚ) true "x".toList 5) = true ∧
    (update_item "num".toList (43/2 : ℚ) true "x".toList 5).val_num = some (43/2 : ℚ) :=
  ⟨(C8_value_classification.1 "num".toList (43/2 : ℚ) true "x".toList 5).1,
    (C8_value_classification.1 "num".toList (43/2 : ℚ) true "x".toList 5).2.1 rfl⟩

end DbLog

namespace DbLog

theorem logFold_eq (id : Int) (tuples : List Obs) (db : DbState) :
    tuples.foldl (fun d t => { d with log := d.log ++ [mkLogRow id t] }) db =
      { db with log := db.log ++ tuples.map (mkLogRow id) } := by
  induction tuples generalizing db with
  | nil => simp
  | cons t ts ih =>
      rw [List.foldl_cons, ih]
      simp

theorem processItem_eq {db db1 : DbState} {name : Str} {rid : Int}
    (tuples : List Obs) (h : tuples ≠ [])
    (hres : resolve db name = (db1, some rid)) :
    processItem db name tuples =
      Except.ok
        { item := db1.item.map (fun r =>
            if r.id == rid then
              { r with time := some (tuples.getLast h).time,
                       val_str := (tuples.getLast h).val_str,
                       val_num := (tuples.getLast h).val_num,
                       val_bool := (tuples.getLast h).val_bool }
            else r),
          log := db1.log ++ tuples.map (mkLogRow rid),
          commits := db1.commits + 1 } := by
  unfold processItem
  rw [hres]
  simp only [logFold_eq, List.getLast?_eq_getLast tuples h]

theorem processItem_ok {db : DbState} {name : Str} (tuples : List Obs) (h : tuples ≠ []) :
    ∃ db2, processItem db name tuples = Except.ok db2 := by
  obtain ⟨db1, rid, hres⟩ := resolve_returns_id db name
  exact ⟨_, processItem_eq tuples h hres⟩

theorem dump_foldl_buffer (connected : Bool) (fail : Fault) (l : Buffer)
    (acc : DbState × List Warn × Buffer) :
    (l.foldl (dumpStep connected fail) acc).2.2 =
      acc.2.2 ++ l.map (fun e => (e.1, ([] : List Obs))) := by
  induction l generalizing acc with
  | nil => simp
  | cons e es ih =>
      rw [List.foldl_cons, ih]
      simp [dumpStep]

theorem dump_drains_buffer (fail : Fault) (s : FlushState) :
    (dump fail s).buffer = s.buffer.map (fun e => (e.1, ([] : List Obs))) := by
  show (s.buffer.foldl (dumpStep s.connected fail) (s.db, s.warnings, [])).2.2 = _
  rw [dump_foldl_buffer]
  simp

theorem dumpItem_nonempty_connected (fail : Fault) (db : DbState) (warns : List Warn)
    (name : Str) (tuples : List Obs) (h : tuples ≠ []) :
    dumpItem true fail db warns name tuples =
      match fail name with
      | some p => (p.1 db, warns ++ [(name, p.2)])
      | none =>
          match processItem db name tuples with
          | Except.ok db2 => (db2, warns)
          | Except.error msg => (db, warns ++ [(name, msg)]) := by
  unfold dumpItem
  rw [if_neg (by simpa using h)]
  rfl

/-- Claim C3: for an item whose buffer drained to a non-empty list of
    observations, a flush against a healthy connected backend resolves the
    item id and appends one log row per observation, in original order,
    each carrying (time, item_id, val_str, val_num, val_bool); it then
    rewrites the item snapshot row for that id to the last drained
    observation and performs one commit, with no warning logged; and after
    any dump every buffer entry is left empty. -/
theorem C3_flush_persists (db : DbState) (name : Str) (tuples : List Obs)
    (h : tuples ≠ []) :
    (∀ (db1 : DbState) (rid : Int), resolve db name = (db1, some rid) →
        dumpItem true (fun _ => none) db [] name tuples =
          ({ item := db1.item.map (fun r =>
                if r.id == rid then
                  { r with time := some (tuples.getLast h).time,
                           val_str := (tuples.getLast h).val_str,
                           val_num := (tuples.getLast h).val_num,
                           val_bool := (tuples.getLast h).val_bool }
                else r),
             log := db1.log ++ tuples.map (mkLogRow rid),
             commits := db1.commits + 1 }, [])) ∧
    (tuples.map (mkLogRow 0)).length = tuples.length ∧
    (∀ (fail : Fault) (s : FlushState),
        (dump fail s).buffer = s.buffer.map (fun e => (e.1, ([] : List Obs)))) := by
  refine ⟨?_, List.length_map tuples (mkLogRow 0), fun fail s => dump_drains_buffer fail s⟩
  intro db1 rid hres
  rw [dumpItem_nonempty_connected _ _ _ _ _ h]
  rw [processItem_eq tuples h hres]

end DbLog

namespace DbLog

theorem C3_flush_persists_witness :
    dumpItem true (fun _ => none) ⟨[], [], 0⟩ [] "temp1".toList
        [⟨1, none, some (43/2 : ℚ), none⟩, ⟨2, none, some 22, none⟩, ⟨3, none, some 23, none⟩] =
      (⟨[⟨1, "temp1".toList, some 3, none, some 23, none⟩],
        [⟨1, 1, none, some (43/2 : ℚ), none⟩, ⟨2, 1, none, some 22, none⟩,
         ⟨3, 1, none, some 23, none⟩], 1⟩, []) :=
  (C3_flush_persists ⟨[], [], 0⟩ "temp1".toList
      [⟨1, none, some (43/2 : ℚ), none⟩, ⟨2, none, some 22, none⟩, ⟨3, none, some 23, none⟩]
      (by decide)).1
    ⟨[⟨1, "temp1".toList, none, none, none, none⟩], [], 0⟩ 1 (by decide)

theorem dump_pair (connected : Bool) (fail : Fault) (n1 n2 : Str) (t1 t2 : List Obs)
    (db : DbState) (cl : Bool) :
    dump fail
      { connected := connected, buffer := [(n1, t1), (n2, t2)], db := db,
        warnings := [], closed := cl } =
      { connected := connected,
        buffer := [(n1, []), (n2, [])],
        db := (dumpItem connected fail (dumpItem connected fail db [] n1 t1).1
                 (dumpItem connected fail db [] n1 t1).2 n2 t2).1,
        warnings := (dumpItem connected fail (dumpItem connected fail db [] n1 t1).1
                 (dumpItem connected fail db [] n1 t1).2 n2 t2).2,
        closed := cl } := rfl

/-- Claim C4: a backend exception during the per-item flush sequence of one
    item, wherever it strikes and whatever partial effect it left, is
    caught and logged with the item identifier and the error detail; the
    flush of the remaining items still proceeds and persists them; and the
    drained observations of the failing item are discarded, not placed back
    in the buffer. -/
theorem C4_failure_isolation (f : DbState → DbState) (msg : Str) (n1 n2 : Str)
    (t1 t2 : List Obs) (hne : n2 ≠ n1) (h1 : t1 ≠ []) (h2 : t2 ≠ []) (db : DbState) :
    dumpItem true (fun n => if n = n1 then some (f, msg) else none) db [] n1 t1
      = (f db, [(n1, msg)]) ∧
    (∃ db2, processItem (f db) n2 t2 = Except.ok db2) ∧
    (∀ db2 : DbState, processItem (f db) n2 t2 = Except.ok db2 →
      dump (fun n => if n = n1 then some (f, msg) else none)
        { connected := true, buffer := [(n1, t1), (n2, t2)], db := db,
          warnings := [], closed := false }
        = { connected := true, buffer := [(n1, []), (n2, [])], db := db2,
            warnings := [(n1, msg)], closed := false }) := by
  have hf1 : dumpItem true (fun n => if n = n1 then some (f, msg) else none) db [] n1 t1
      = (f db, [(n1, msg)]) := by
    rw [dumpItem_nonempty_connected _ _ _ _ _ h1]
    rw [if_pos rfl]
    rfl
  refine ⟨hf1, processItem_ok t2 h2, ?_⟩
  intro db2 hdb2
  have hf2 : dumpItem true (fun n => if n = n1 then some (f, msg) else none)
      (f db) [(n1, msg)] n2 t2 = (db2, [(n1, msg)]) := by
    rw [dumpItem_nonempty_connected _ _ _ _ _ h2]
    rw [if_neg hne, hdb2]
  rw [dump_pair]
  simp only [hf1, hf2]

theorem C4_failure_isolation_witness :
    dump (fun n => if n = "a".toList then some (fun d : DbState => d, "boom".toList) else none)
      { connected := true,
        buffer := [("a".toList, [⟨1, none, none, some true⟩]),
                   ("b".toList, [⟨2, none, none, some false⟩])],
        db := ⟨[], [], 0⟩, warnings := [], closed := false }
      = { connected := true, buffer := [("a".toList, []), ("b".toList, [])],
          db := ⟨[⟨1, "b".toList, some 2, none, none, some false⟩],
                 [⟨2, 1, none, none, some false⟩], 1⟩,
          warnings := [("a".toList, "boom".toList)], closed := false } :=
  (C4_failure_isolation (fun d => d) "boom".toList "a".toList "b".toList
      [⟨1, none, none, some true⟩] [⟨2, none, none, some false⟩]
      (by decide) (by decide) (by decide) ⟨[], [], 0⟩).2.2
    ⟨[⟨1, "b".toList, some 2, none, none, some false⟩],
      [⟨2, 1, none, none, some false⟩], 1⟩ rfl

end DbLog

namespace DbLog

theorem digitChar_ne_mark (m : Nat) (hm : m < 10) : Char.ofNat (48 + m) ≠ '?' := by
  interval_cases m <;> decide

theorem natToDecimalAux_ne_mark (fuel : Nat) :
    ∀ n, ∀ c ∈ natToDecimalAux fuel n, c ≠ '?' := by
  induction fuel with
  | zero =>
      intro n c hc
      cases hc
  | succ fuel ih =>
      intro n c hc
      simp only [natToDecimalAux] at hc
      by_cases h : n < 10
      · rw [if_pos h] at hc
        rcases List.mem_singleton.mp hc with rfl
        exact digitChar_ne_mark n h
      · rw [if_neg h] at hc
        rcases List.mem_append.mp hc with h' | h'
        · exact ih (n / 10) c h'
        · rcases List.mem_singleton.mp h' with rfl
          exact digitChar_ne_mark (n % 10) (Nat.mod_lt _ (by omega))

theorem natToDecimal_ne_mark (n : Nat) : ∀ c ∈ natToDecimal n, c ≠ '?' :=
  natToDecimalAux_ne_mark (n + 1) n

theorem mem_split_first {c : Char} {l : List Char} (h : c ∈ l) :
    ∃ pre post, l = pre ++ c :: post ∧ c ∉ pre := by
  induction l with
  | nil => cases h
  | cons a rest ih =>
      by_cases hac : a = c
      · subst hac
        exact ⟨[], rest, rfl, by simp⟩
      · rcases List.mem_cons.mp h with h' | h'
        · exact absurd h'.symm hac
        · obtain ⟨pre, post, hsplit, hnot⟩ := ih h'
          refine ⟨a :: pre, post, by rw [hsplit]; rfl, ?_⟩
          intro hmem
          rcases List.mem_cons.mp hmem with h'' | h''
          · exact hac h''.symm
          · exact hnot h''

theorem pyReplaceFirst_split (c : Char) (repl : Str) :
    ∀ (pre post : Str), c ∉ pre →
      pyReplaceFirst (pre ++ c :: post) c repl = pre ++ (repl ++ post) := by
  intro pre
  induction pre with
  | nil =>
      intro post h
      show pyReplaceFirst (c :: post) c repl = repl ++ post
      unfold pyReplaceFirst
      rw [if_pos rfl]
  | cons a pre ih =>
      intro post h
      have hac : ¬ a = c := by
        intro e
        exact h (by simp [e])
      show pyReplaceFirst (a :: (pre ++ c :: post)) c repl = a :: (pre ++ (repl ++ post))
      unfold pyReplaceFirst
      rw [if_neg hac, ih post (fun hm => h (List.mem_cons_of_mem a hm))]

theorem numericSpec_append (pre : Str) :
    ∀ (post : Str) (k : Nat), '?' ∉ pre →
      numericSpec (pre ++ post) k = pre ++ numericSpec post k := by
  induction pre with
  | nil =>
      intro post k h
      rfl
  | cons a pre ih =>
      intro post k h
      have ha : ¬ a = '?' := by
        intro e
        exact h (by simp [e])
      show numericSpec (a :: (pre ++ post)) k = a :: (pre ++ numericSpec post k)
      simp only [numericSpec]
      rw [if_neg ha, ih post k (fun hm => h (List.mem_cons_of_mem a hm))]

theorem numericSpec_of_no_mark (s : Str) : ∀ k, '?' ∉ s → numericSpec s k = s := by
  induction s with
  | nil =>
      intro k h
      rfl
  | cons a rest ih =>
      intro k h
      have ha : ¬ a = '?' := by
        intro e
        exact h (by simp [e])
      simp only [numericSpec]
      rw [if_neg ha, ih k (fun hm => h (List.mem_cons_of_mem a hm))]

theorem numericLoop_eq_spec : ∀ (m : Nat) (stmt : Str) (k : Nat),
    stmt.count '?' = m → numericLoop stmt k m = numericSpec stmt k := by
  intro m
  induction m with
  | zero =>
      intro stmt k hc
      have hnot : '?' ∉ stmt := by
        intro hm
        have := List.count_pos_iff.mpr hm
        omega
      show stmt = numericSpec stmt k
      exact (numericSpec_of_no_mark stmt k hnot).symm
  | succ m ih =>
      intro stmt k hc
      have hmem : '?' ∈ stmt := List.count_pos_iff.mp (by omega)
      obtain ⟨pre, post, rfl, hpre⟩ := mem_split_first hmem
      have hdig : '?' ∉ natToDecimal k := fun hm => natToDecimal_ne_mark k '?' hm rfl
      have hrepl : '?' ∉ (':' :: natToDecimal k) := by
        intro hm
        rcases List.mem_cons.mp hm with h' | h'
        · exact absurd h' (by decide)
        · exact natToDecimal_ne_mark k '?' h' rfl
      have hstep : numericLoop (pre ++ '?' :: post) k (m + 1) =
          numericLoop (pyReplaceFirst (pre ++ '?' :: post) '?' (':' :: natToDecimal k))
            (k + 1) m := by
        simp only [numericLoop]
        rw [if_pos hmem]
      rw [hstep, pyReplaceFirst_split '?' (':' :: natToDecimal k) pre post hpre]
      have hcount : (pre ++ ((':' :: natToDecimal k) ++ post)).count '?' = m := by
        have h0 : pre.count '?' = 0 := List.count_eq_zero.mpr hpre
        have h1 : (':' :: natToDecimal k).count '?' = 0 := List.count_eq_zero.mpr hrepl
        have h2 := hc
        rw [List.count_append, List.count_cons_self] at h2
        rw [List.count_append, List.count_append, h0, h1]
        omega
      rw [ih _ (k + 1) hcount]
      rw [numericSpec_append pre ((':' :: natToDecimal k) ++ post) (k + 1) hpre]
      rw [List.cons_append]
      simp only [numericSpec]
      rw [if_neg (by decide : ¬(':' = '?'))]
      rw [numericSpec_append (natToDecimal k) post (k + 1) hdig]
      rw [numericSpec_append pre ('?' :: post) k hpre]
      simp [numericSpec]

theorem pyReplaceAll_eq_flatMap (s : Str) (c : Char) (repl : Str) :
    pyReplaceAll s c repl = s.flatMap (fun x => if x = c then repl else [x]) := by
  induction s with
  | nil => rfl
  | cons a rest ih =>
      simp only [pyReplaceAll, List.flatMap_cons]
      by_cases hac : a = c
      · rw [if_pos hac, if_pos hac, ih]
      · rw [if_neg hac, if_neg hac, ih]
        rfl

/-- Claim C6: the statement formatter is a pure function on the statement
    string; with style qmark the statement is returned unchanged, with
    style format every question mark is replaced by a percent-s marker,
    with style numeric the k-th question mark in left-to-right order is
    replaced by a colon followed by k, handling repeated placeholders; in
    particular the three-placeholder INSERT statement of the spec maps to
    its numbered and printf forms. -/
theorem C6_formatter (stmt : Str) :
    _format "qmark".toList stmt = some stmt ∧
    _format "format".toList stmt =
      some (stmt.flatMap (fun c => if c = '?' then "%s".toList else [c])) ∧
    _format "numeric".toList stmt = some (numericSpec stmt 1) ∧
    _format "numeric".toList "INSERT INTO t VALUES (?,?,?)".toList =
      some ("INSERT INTO t VALUES (:1,:2,:3)".toList) ∧
    _format "format".toList "INSERT INTO t VALUES (?,?,?)".toList =
      some ("INSERT INTO t VALUES (%s,%s,%s)".toList) := by
  refine ⟨rfl, ?_, ?_, by decide, by decide⟩
  · show some (pyReplaceAll stmt '?' ("%s".toList)) = _
    rw [pyReplaceAll_eq_flatMap]
  · show some (numericLoop stmt 1 (stmt.count '?')) = _
    rw [numericLoop_eq_spec (stmt.count '?') stmt 1 rfl]

end DbLog

namespace BufferRace

/-- Claim C2 fails on the code: line 129 of update_item appends to the
    buffered list without acquiring the buffer lock, so in the schedule
    where the producer reads the list reference, the flusher then drains
    and rebinds the entry under the lock, and the producer finally appends
    observation 7 to the stale list, the observation ends up in a cell no
    longer referenced by the buffer: it is drained zero times across both
    flush cycles and is absent from the live buffer, lost forever, instead
    of being drained exactly once as the claim states. -/
theorem C2_lost_observation :
    raceFinal.out.count 7 = 0 ∧
    (raceFinal.cells.getD raceFinal.cur []).count 7 = 0 ∧
    raceFinal.cells.getD 0 [] = [7] := by decide

end BufferRace
